/-
Verification of the service worker `sw.js` of the Compound-Tracker
Dosage-Calculator repository.

The script registers three event handlers (install, activate, fetch) over
the browser Cache Storage API.  We embed the script shallowly:

* a `Request` carries the fields the script inspects (`url`, `method`,
  `mode`), a `Response` the fields it inspects (`status`, `type`) plus an
  opaque `body`;
* Cache Storage is an ordered list of named stores, each an association
  list from request to response keyed — as the platform `Cache.match` /
  `Cache.put` are — by the request URL;
* the network is an explicit parameter: for the fetch handler a function
  `Request → Except Unit (Option Response)` (`.error` = the fetch promise
  rejected, `.ok none` = the falsy-response guard case of the script,
  `.ok (some r)`
  = resolved with response `r`), and for the install handler a function
  `String → Except Unit Response` applied to each pre-cache URL;
* the detached cache-write chains `caches.open(CACHE_NAME).then(cache =>
  cache.put(...))` on the two success paths have no `.catch`; whether such
  a write succeeds is the explicit `writeOk` parameter, and a failing
  write on those paths is recorded in the `unhandledRejection` field of
  the handler result, since no handler is attached to that chain.
-/
import Mathlib

set_option autoImplicit false

namespace SW

/-- The constant CACHE_NAME of sw.js line 3. -/
def CACHE_NAME : String := "dosage-calculator-cache-v1.3"

/-- The constant urlsToCache of sw.js lines 4-10: the root path and the
index.html path. -/
def urlsToCache : List String := ["./", "./index.html"]

/-- The fields of a request that sw.js inspects. -/
structure Request where
  url : String
  method : String
  mode : String
  deriving DecidableEq, Repr

/-- The fields of a response that sw.js inspects, plus an opaque body
identifying the response.  `type` is the response type string
(`"basic"` for same-origin). -/
structure Response where
  status : Nat
  type : String
  body : String
  deriving DecidableEq, Repr

/-- One cache store: an ordered list of request/response pairs. -/
abbrev CacheStore := List (Request × Response)

/-- `Cache.match`: first stored response whose request URL equals the
looked-up URL. -/
def storeMatch : CacheStore → String → Option Response
  | [], _ => none
  | (r, p) :: rest, url => if r.url = url then some p else storeMatch rest url

/-- `Cache.put`: replace the entry keyed by the URL of the request,
appending if absent. -/
def storePut : CacheStore → Request → Response → CacheStore
  | [], req, resp => [(req, resp)]
  | (r, p) :: rest, req, resp =>
    if r.url = req.url then (req, resp) :: rest
    else (r, p) :: storePut rest req resp

/-- Cache Storage: ordered list of named stores. -/
structure CacheStorage where
  stores : List (String × CacheStore)
  deriving DecidableEq, Repr

/-- `caches.open(name)` followed by `cache.put(req, resp)`: put into the
first store of that name, creating the store at the end if absent. -/
def storesPut : List (String × CacheStore) → String → Request → Response →
    List (String × CacheStore)
  | [], name, req, resp => [(name, [(req, resp)])]
  | (n, st) :: rest, name, req, resp =>
    if n = name then (n, storePut st req resp) :: rest
    else (n, st) :: storesPut rest name req resp

def CacheStorage.put (cs : CacheStorage) (name : String) (req : Request)
    (resp : Response) : CacheStorage :=
  ⟨storesPut cs.stores name req resp⟩

/-- `caches.open(name)` alone: create the store at the end if absent. -/
def storesOpen : List (String × CacheStore) → String → List (String × CacheStore)
  | [], name => [(name, [])]
  | (n, st) :: rest, name =>
    if n = name then (n, st) :: rest else (n, st) :: storesOpen rest name

def CacheStorage.openStore (cs : CacheStorage) (name : String) : CacheStorage :=
  ⟨storesOpen cs.stores name⟩

/-- The contents of the store of the given name (`[]` if absent). -/
def storesGet : List (String × CacheStore) → String → CacheStore
  | [], _ => []
  | (n, st) :: rest, name => if n = name then st else storesGet rest name

def CacheStorage.getStore (cs : CacheStorage) (name : String) : CacheStore :=
  storesGet cs.stores name

/-- `caches.match(req)`: look the URL up in every store in order. -/
def storesMatch : List (String × CacheStore) → String → Option Response
  | [], _ => none
  | (_, st) :: rest, url =>
    match storeMatch st url with
    | some p => some p
    | none => storesMatch rest url

def CacheStorage.matchAll (cs : CacheStorage) (req : Request) : Option Response :=
  storesMatch cs.stores req.url

/-- `caches.keys()`. -/
def CacheStorage.names (cs : CacheStorage) : List String :=
  cs.stores.map Prod.fst

/-- All (store name, request, response) triples present in cache storage. -/
def storagesEntries : List (String × CacheStore) →
    List (String × Request × Response)
  | [] => []
  | (n, st) :: rest => st.map (fun q => (n, q.1, q.2)) ++ storagesEntries rest

def CacheStorage.entries (cs : CacheStorage) : List (String × Request × Response) :=
  storagesEntries cs.stores

/-! ### The activate handler (sw.js lines 35-51)

`caches.keys()` is enumerated and every store whose name is not in
`[CACHE_NAME]` is deleted; stores named `CACHE_NAME` are kept. -/

def activateHandler (cs : CacheStorage) : CacheStorage :=
  ⟨cs.stores.filter (fun p => p.1 = CACHE_NAME)⟩

/-! ### The install handler (sw.js lines 13-32)

`caches.open(CACHE_NAME)` then, for every URL of the pre-cache list,
`cache.add` on a reload-mode request for the URL, with a per-item `.catch`
that logs and swallows the failure; the results are joined with
`Promise.all`, and an outer `.catch` guards the `caches.open`. -/

/-- The request `cache.add` builds for a pre-cache URL: a plain GET
request, not a navigation. -/
def precacheRequest (url : String) : Request :=
  { url := url, method := "GET", mode := "" }

/-- `Response.ok` of the platform: status in 200..299.  `cache.add`
stores the fetched response only when it is ok, rejecting otherwise
(the rejection is then swallowed by the per-item `.catch`). -/
def respOk (r : Response) : Bool := 200 ≤ r.status && r.status < 300

/-- Outcome of one `cache.add(url)`: `some r` if the fetch resolved with
an ok response `r` that gets stored, `none` if the fetch rejected or the
response was not ok (the per-item `.catch` swallows the failure). -/
def addResult (net : String → Except Unit Response) (url : String) :
    Option Response :=
  match net url with
  | .ok r => if respOk r then some r else none
  | .error _ => none

/-- Run every `cache.add` of a list of URLs in order against the given
storage, storing the ok responses and swallowing each failure. -/
def addAllFrom (net : String → Except Unit Response) (urls : List String)
    (cs : CacheStorage) : CacheStorage :=
  urls.foldl
    (fun acc url =>
      match addResult net url with
      | some r => acc.put CACHE_NAME (precacheRequest url) r
      | none => acc)
    cs

/-- The install handler generalised over the pre-cache list: open the
current-version store, then run every `cache.add`, storing the ok
responses and swallowing each failure. -/
def installList (net : String → Except Unit Response) (urls : List String)
    (cs : CacheStorage) : CacheStorage :=
  addAllFrom net urls (cs.openStore CACHE_NAME)

/-- What the current-version store holds for a URL. -/
def currentLookup (cs : CacheStorage) (url : String) : Option Response :=
  storeMatch (cs.getStore CACHE_NAME) url

def installHandler (net : String → Except Unit Response) (cs : CacheStorage) :
    CacheStorage :=
  installList net urlsToCache cs

/-! ### The fetch handler (sw.js lines 54-137) -/

/-- Whether `event.respondWith` was called, and with what the supplied
promise resolved (`responded none` = resolved with `undefined`, which
the runtime surfaces as its default network-error/offline behaviour). -/
inductive FetchOutcome
  | notHandled
  | responded (r : Option Response)
  deriving DecidableEq, Repr

/-- Result of one fetch-handler execution: the respond outcome, the cache
storage afterwards, whether a network fetch was performed, and whether a
promise rejection was left without any attached handler. -/
structure FetchResult where
  outcome : FetchOutcome
  caches : CacheStorage
  networkFetched : Bool
  unhandledRejection : Bool
  deriving DecidableEq, Repr

/-- The fetch handler.  `net req` is what `fetch(event.request)` does;
`writeOk` is whether the detached
`caches.open(CACHE_NAME).then(cache => cache.put(...))` chain (which has
no `.catch` in sw.js) succeeds.  A failing detached write leaves the
response unchanged but leaves its rejection unhandled. -/
def fetchHandler (net : Request → Except Unit (Option Response))
    (writeOk : Bool) (cs : CacheStorage) (req : Request) : FetchResult :=
  if req.method ≠ "GET" then
    -- lines 56-58: non-GET requests are not responded to at all
    ⟨.notHandled, cs, false, false⟩
  else if req.mode = "navigate" then
    -- lines 62-103: network-first for navigation
    match net req with
    | .ok (some r) =>
      if r.status = 200 ∧ r.type = "basic" then
        -- lines 80-86: clone, detached write, return the live response
        if writeOk then
          ⟨.responded (some r), cs.put CACHE_NAME req r, true, false⟩
        else
          ⟨.responded (some r), cs, true, true⟩
      else
        -- lines 67-77: invalid response, fall back to caches.match
        match cs.matchAll req with
        | some c => ⟨.responded (some c), cs, true, false⟩
        | none => ⟨.responded (some r), cs, true, false⟩
    | .ok none =>
      -- the `!response` half of the line-67 guard; `return response`
      match cs.matchAll req with
      | some c => ⟨.responded (some c), cs, true, false⟩
      | none => ⟨.responded none, cs, true, false⟩
    | .error _ =>
      -- lines 88-102: network rejected, fall back to caches.match
      match cs.matchAll req with
      | some c => ⟨.responded (some c), cs, true, false⟩
      | none => ⟨.responded none, cs, true, false⟩
  else
    -- lines 107-135: cache-first for non-navigation requests
    match cs.matchAll req with
    | some c => ⟨.responded (some c), cs, false, false⟩
    | none =>
      match net req with
      | .ok (some r) =>
        if r.status = 200 then
          -- lines 122-127: clone, detached write, return the response
          if writeOk then
            ⟨.responded (some r), cs.put CACHE_NAME req r, true, false⟩
          else
            ⟨.responded (some r), cs, true, true⟩
        else
          -- lines 118-121: non-200, return unmodified without caching
          ⟨.responded (some r), cs, true, false⟩
      | .ok none => ⟨.responded none, cs, true, false⟩
      | .error _ =>
        -- lines 129-132: fetch rejected, logged, resolves with undefined
        ⟨.responded none, cs, true, false⟩

/-! ### Lemmas about the store operations -/

theorem storeMatch_storePut_self (st : CacheStore) (req : Request)
    (resp : Response) :
    storeMatch (storePut st req resp) req.url = some resp := by
  induction st with
  | nil => simp [storePut, storeMatch]
  | cons a rest ih =>
    obtain ⟨r, p⟩ := a
    by_cases h : r.url = req.url
    · simp [storePut, h, storeMatch]
    · simp [storePut, h, storeMatch, ih]

theorem storeMatch_storePut_ne (st : CacheStore) (req : Request)
    (resp : Response) (url : String) (h : url ≠ req.url) :
    storeMatch (storePut st req resp) url = storeMatch st url := by
  induction st with
  | nil => simp [storePut, storeMatch, Ne.symm h]
  | cons a rest ih =>
    obtain ⟨r, p⟩ := a
    by_cases hr : r.url = req.url
    · simp [storePut, hr, storeMatch, Ne.symm h]
    · simp [storePut, hr, storeMatch, ih]

theorem mem_storePut {st : CacheStore} {req : Request} {resp : Response}
    {q : Request × Response} (h : q ∈ storePut st req resp) :
    q ∈ st ∨ q = (req, resp) := by
  induction st with
  | nil =>
    simp [storePut] at h
    exact Or.inr h
  | cons a rest ih =>
    obtain ⟨r, p⟩ := a
    by_cases hr : r.url = req.url
    · simp [storePut, hr] at h
      rcases h with h | h
      · exact Or.inr (by simp [h])
      · exact Or.inl (List.mem_cons_of_mem _ h)
    · simp [storePut, hr] at h
      rcases h with h | h
      · exact Or.inl (by simp [h])
      · rcases ih h with h' | h'
        · exact Or.inl (List.mem_cons_of_mem _ h')
        · exact Or.inr h'

theorem storesGet_storesPut_self (l : List (String × CacheStore))
    (name : String) (req : Request) (resp : Response) :
    storesGet (storesPut l name req resp) name =
      storePut (storesGet l name) req resp := by
  induction l with
  | nil => simp [storesPut, storesGet, storePut]
  | cons a rest ih =>
    obtain ⟨n, st⟩ := a
    by_cases h : n = name
    · simp [storesPut, storesGet, h]
    · simp [storesPut, storesGet, h, ih]

theorem storesGet_storesPut_ne (l : List (String × CacheStore))
    (name name' : String) (req : Request) (resp : Response)
    (h : name' ≠ name) :
    storesGet (storesPut l name req resp) name' = storesGet l name' := by
  induction l with
  | nil => simp [storesPut, storesGet, Ne.symm h]
  | cons a rest ih =>
    obtain ⟨n, st⟩ := a
    by_cases hn : n = name
    · subst hn
      simp [storesPut, storesGet, Ne.symm h]
    · simp [storesPut, storesGet, hn, ih]

theorem storesGet_storesOpen (l : List (String × CacheStore))
    (name name' : String) :
    storesGet (storesOpen l name) name' = storesGet l name' := by
  induction l with
  | nil =>
    by_cases h : name = name' <;> simp [storesOpen, storesGet, h]
  | cons a rest ih =>
    obtain ⟨n, st⟩ := a
    by_cases hn : n = name
    · simp [storesOpen, storesGet, hn]
    · simp only [storesOpen, if_neg hn]
      by_cases hn' : n = name' <;> simp [storesGet, hn', ih]

theorem mem_storagesEntries_storesPut
    {l : List (String × CacheStore)} {name : String} {req : Request}
    {resp : Response} {e : String × Request × Response}
    (h : e ∈ storagesEntries (storesPut l name req resp)) :
    e ∈ storagesEntries l ∨ e = (name, req, resp) := by
  induction l with
  | nil =>
    simp [storesPut, storagesEntries] at h
    exact Or.inr (by simp [h])
  | cons a rest ih =>
    obtain ⟨n, st⟩ := a
    by_cases hn : n = name
    · subst hn
      simp only [storesPut, if_pos rfl, storagesEntries, List.mem_append,
        List.mem_map] at h
      rcases h with ⟨q, hq, he⟩ | h
      · rcases mem_storePut hq with h' | h'
        · exact Or.inl (by
            simp only [storagesEntries, List.mem_append, List.mem_map]
            exact Or.inl ⟨q, h', he⟩)
        · subst h'
          exact Or.inr (by simp [← he])
      · exact Or.inl (by
          simp only [storagesEntries, List.mem_append]
          exact Or.inr h)
    · simp only [storesPut, if_neg hn, storagesEntries, List.mem_append] at h
      rcases h with h | h
      · exact Or.inl (by
          simp only [storagesEntries, List.mem_append]
          exact Or.inl h)
      · rcases ih h with h' | h'
        · exact Or.inl (by
            simp only [storagesEntries, List.mem_append]
            exact Or.inr h')
        · exact Or.inr h'

theorem mem_entries_put {cs : CacheStorage} {name : String} {req : Request}
    {resp : Response} {e : String × Request × Response}
    (h : e ∈ (cs.put name req resp).entries) :
    e ∈ cs.entries ∨ e = (name, req, resp) :=
  mem_storagesEntries_storesPut h

theorem currentLookup_put_self (cs : CacheStorage) (req : Request)
    (resp : Response) :
    currentLookup (cs.put CACHE_NAME req resp) req.url = some resp := by
  simp [currentLookup, CacheStorage.put, CacheStorage.getStore,
    storesGet_storesPut_self, storeMatch_storePut_self]

theorem currentLookup_put_ne (cs : CacheStorage) (req : Request)
    (resp : Response) (url : String) (h : url ≠ req.url) :
    currentLookup (cs.put CACHE_NAME req resp) url = currentLookup cs url := by
  simp [currentLookup, CacheStorage.put, CacheStorage.getStore,
    storesGet_storesPut_self, storeMatch_storePut_ne _ _ _ _ h]

theorem currentLookup_openStore (cs : CacheStorage) (name url : String) :
    currentLookup (cs.openStore name) url = currentLookup cs url := by
  simp [currentLookup, CacheStorage.openStore, CacheStorage.getStore,
    storesGet_storesOpen]

/-! ### Lemmas about the install fold -/

theorem addAllFrom_lookup_untouched (net : String → Except Unit Response)
    (urls : List String) (cs : CacheStorage) (url : String)
    (h : addResult net url = none ∨ url ∉ urls) :
    currentLookup (addAllFrom net urls cs) url = currentLookup cs url := by
  induction urls generalizing cs with
  | nil => rfl
  | cons u rest ih =>
    have hrest : addResult net url = none ∨ url ∉ rest := by
      rcases h with h | h
      · exact Or.inl h
      · exact Or.inr (fun hm => h (List.mem_cons_of_mem _ hm))
    show currentLookup
        (addAllFrom net rest
          (match addResult net u with
           | some r => CacheStorage.put cs CACHE_NAME (precacheRequest u) r
           | none => cs)) url = currentLookup cs url
    cases ha : addResult net u with
    | none => simpa using ih _ hrest
    | some r =>
      have hne : url ≠ u := by
        intro he
        rcases h with h | h
        · rw [he, ha] at h
          exact Option.noConfusion h
        · exact h (by simp [he])
      have := ih (CacheStorage.put cs CACHE_NAME (precacheRequest u) r) hrest
      simpa [this] using currentLookup_put_ne cs (precacheRequest u) r url hne

theorem addAllFrom_lookup_added (net : String → Except Unit Response)
    (urls : List String) (cs : CacheStorage) (url : String) (r : Response)
    (hmem : url ∈ urls) (ha : addResult net url = some r) :
    currentLookup (addAllFrom net urls cs) url = some r := by
  induction urls generalizing cs with
  | nil => cases hmem
  | cons u rest ih =>
    show currentLookup
        (addAllFrom net rest
          (match addResult net u with
           | some p => CacheStorage.put cs CACHE_NAME (precacheRequest u) p
           | none => cs)) url = some r
    by_cases hrest : url ∈ rest
    · cases addResult net u <;> exact ih _ hrest
    · have hu : url = u := by
        rcases List.mem_cons.mp hmem with h | h
        · exact h
        · exact absurd h hrest
      subst hu
      rw [ha]
      have hbase :
          currentLookup (CacheStorage.put cs CACHE_NAME (precacheRequest url) r)
            url = some r := currentLookup_put_self cs (precacheRequest url) r
      rw [addAllFrom_lookup_untouched net rest _ url (Or.inr hrest)]
      exact hbase

theorem getStore_put_other (cs : CacheStorage) (nm name : String)
    (req : Request) (resp : Response) (h : name ≠ nm) :
    (cs.put nm req resp).getStore name = cs.getStore name :=
  storesGet_storesPut_ne cs.stores nm name req resp h

/-- Case analysis of the cache-storage effect of one fetch-handler run:
either the storage is untouched, or exactly one put of a status-200
response under a GET request into the current-version store happened. -/
theorem fetchHandler_cases (net : Request → Except Unit (Option Response))
    (writeOk : Bool) (cs : CacheStorage) (req : Request) :
    (fetchHandler net writeOk cs req).caches = cs ∨
    ∃ r : Response, req.method = "GET" ∧ r.status = 200 ∧
      (fetchHandler net writeOk cs req).caches = cs.put CACHE_NAME req r := by
  by_cases hm : req.method = "GET"
  · by_cases hnav : req.mode = "navigate"
    · cases hnet : net req with
      | error e =>
        cases hc : cs.matchAll req <;> simp [fetchHandler, hm, hnav, hnet, hc]
      | ok o =>
        cases o with
        | none =>
          cases hc : cs.matchAll req <;> simp [fetchHandler, hm, hnav, hnet, hc]
        | some r =>
          by_cases hv : r.status = 200 ∧ r.type = "basic"
          · cases writeOk with
            | false => simp [fetchHandler, hm, hnav, hnet, hv]
            | true =>
              refine Or.inr ⟨r, hm, hv.1, ?_⟩
              simp [fetchHandler, hm, hnav, hnet, hv]
          · cases hc : cs.matchAll req <;>
              simp [fetchHandler, hm, hnav, hnet, hv, hc]
    · cases hc : cs.matchAll req with
      | some c => simp [fetchHandler, hm, hnav, hc]
      | none =>
        cases hnet : net req with
        | error e => simp [fetchHandler, hm, hnav, hc, hnet]
        | ok o =>
          cases o with
          | none => simp [fetchHandler, hm, hnav, hc, hnet]
          | some r =>
            by_cases hs : r.status = 200
            · cases writeOk with
              | false => simp [fetchHandler, hm, hnav, hc, hnet, hs]
              | true =>
                refine Or.inr ⟨r, hm, hs, ?_⟩
                simp [fetchHandler, hm, hnav, hc, hnet, hs]
            · simp [fetchHandler, hm, hnav, hc, hnet, hs]
  · simp [fetchHandler, hm]

/-! ### Concrete data used by the witnesses and the counterexample -/

def exNavReq : Request := { url := "./", method := "GET", mode := "navigate" }

def exAssetReq : Request :=
  { url := "./logo.png", method := "GET", mode := "no-cors" }

def exPostReq : Request := { url := "./api", method := "POST", mode := "cors" }

def exOkResp : Response := { status := 200, type := "basic", body := "page" }

def exNotFoundResp : Response :=
  { status := 404, type := "basic", body := "missing" }

def exNetOk : Request → Except Unit (Option Response) :=
  fun _ => .ok (some exOkResp)

def exNetDown : Request → Except Unit (Option Response) := fun _ => .error ()

def exNetNotFound : Request → Except Unit (Option Response) :=
  fun _ => .ok (some exNotFoundResp)

def exInstallNet : String → Except Unit Response :=
  fun u => if u = "./" then .ok exOkResp else .error ()

def exEmpty : CacheStorage := ⟨[]⟩

def exWarm : CacheStorage := ⟨[(CACHE_NAME, [(exNavReq, exOkResp)])]⟩

def exStaleStorage : CacheStorage :=
  ⟨[("dosage-calculator-cache-v1.2", [(exAssetReq, exOkResp)]),
    (CACHE_NAME, [])]⟩

/-! ### The claims -/

/-- Claim C2: for every set of cache stores existing when the activate
handler runs, a store name survives activation iff it was present before
and equals the current version constant CACHE_NAME — every
differently-named store is deleted and no stale-version store
survives. -/
theorem activate_removes_stale_stores (cs : CacheStorage) (name : String) :
    name ∈ (activateHandler cs).names ↔
      name ∈ cs.names ∧ name = CACHE_NAME := by
  simp only [activateHandler, CacheStorage.names, List.mem_map,
    List.mem_filter, decide_eq_true_eq]
  constructor
  · rintro ⟨p, ⟨hp, hpc⟩, rfl⟩
    exact ⟨⟨p, hp, rfl⟩, hpc⟩
  · rintro ⟨⟨p, hp, rfl⟩, hc⟩
    exact ⟨p, ⟨hp, hc⟩, rfl⟩

/-- Claim C3: a GET navigation request whose network fetch resolves with a
present, status-200, same-origin response is answered with that network
response, and (the best-effort write having succeeded) the
current-version store subsequently holds the stored clone under the
URL of the request. -/
theorem fetch_nav_success_write_through
    (net : Request → Except Unit (Option Response)) (cs : CacheStorage)
    (req : Request) (r : Response) (hm : req.method = "GET")
    (hnav : req.mode = "navigate") (hnet : net req = .ok (some r))
    (hs : r.status = 200) (ht : r.type = "basic") :
    (fetchHandler net true cs req).outcome = .responded (some r) ∧
    currentLookup (fetchHandler net true cs req).caches req.url = some r := by
  have hres : fetchHandler net true cs req =
      { outcome := .responded (some r), caches := cs.put CACHE_NAME req r,
        networkFetched := true, unhandledRejection := false } := by
    simp [fetchHandler, hm, hnav, hnet, hs, ht]
  rw [hres]
  exact ⟨rfl, currentLookup_put_self cs req r⟩

theorem fetch_nav_success_write_through_witness :
    (exNavReq.method = "GET" ∧ exNavReq.mode = "navigate" ∧
      exNetOk exNavReq = .ok (some exOkResp) ∧ exOkResp.status = 200 ∧
      exOkResp.type = "basic") ∧
    (fetchHandler exNetOk true exEmpty exNavReq).outcome =
        .responded (some exOkResp) ∧
    currentLookup (fetchHandler exNetOk true exEmpty exNavReq).caches
        exNavReq.url = some exOkResp :=
  ⟨⟨rfl, rfl, rfl, rfl, rfl⟩,
   fetch_nav_success_write_through exNetOk exEmpty exNavReq exOkResp
     rfl rfl rfl rfl rfl⟩

/-- Claim C4: a GET navigation request whose network fetch rejects is
answered with the cached match when one exists and with no response
otherwise, the cache storage is unchanged, and no rejection is left
unhandled. -/
theorem fetch_nav_offline_fallback
    (net : Request → Except Unit (Option Response)) (writeOk : Bool)
    (cs : CacheStorage) (req : Request) (hm : req.method = "GET")
    (hnav : req.mode = "navigate") (hnet : net req = .error ()) :
    fetchHandler net writeOk cs req =
      { outcome := .responded (cs.matchAll req), caches := cs,
        networkFetched := true, unhandledRejection := false } := by
  cases hc : cs.matchAll req <;> simp [fetchHandler, hm, hnav, hnet, hc]

theorem fetch_nav_offline_fallback_witness :
    (exNavReq.method = "GET" ∧ exNavReq.mode = "navigate" ∧
      exNetDown exNavReq = .error ()) ∧
    fetchHandler exNetDown true exWarm exNavReq =
      { outcome := .responded (exWarm.matchAll exNavReq), caches := exWarm,
        networkFetched := true, unhandledRejection := false } :=
  ⟨⟨rfl, rfl, rfl⟩,
   fetch_nav_offline_fallback exNetDown true exWarm exNavReq rfl rfl rfl⟩

/-- Claim C5: a GET non-navigation request with a matching cache entry is
answered with that cached response verbatim, with no network fetch and
the cache storage unchanged. -/
theorem fetch_asset_cache_hit
    (net : Request → Except Unit (Option Response)) (writeOk : Bool)
    (cs : CacheStorage) (req : Request) (c : Response)
    (hm : req.method = "GET") (hnav : req.mode ≠ "navigate")
    (hc : cs.matchAll req = some c) :
    fetchHandler net writeOk cs req =
      { outcome := .responded (some c), caches := cs,
        networkFetched := false, unhandledRejection := false } := by
  simp [fetchHandler, hm, hnav, hc]

theorem fetch_asset_cache_hit_witness :
    (exAssetReq.method = "GET" ∧ exAssetReq.mode ≠ "navigate" ∧
      exStaleStorage.matchAll exAssetReq = some exOkResp) ∧
    fetchHandler exNetOk true exStaleStorage exAssetReq =
      { outcome := .responded (some exOkResp), caches := exStaleStorage,
        networkFetched := false, unhandledRejection := false } :=
  ⟨⟨rfl, by decide, by decide⟩,
   fetch_asset_cache_hit exNetOk true exStaleStorage exAssetReq exOkResp
     rfl (by decide) (by decide)⟩

/-- Claim C6: a GET non-navigation request with no cache entry whose
network fetch resolves with a non-200 response is answered with that
response unmodified, the cache storage is unchanged (no entry is
gained), and repeating the request performs a network fetch again. -/
theorem fetch_asset_non200_uncached
    (net : Request → Except Unit (Option Response)) (writeOk : Bool)
    (cs : CacheStorage) (req : Request) (r : Response)
    (hm : req.method = "GET") (hnav : req.mode ≠ "navigate")
    (hmiss : cs.matchAll req = none) (hnet : net req = .ok (some r))
    (hs : r.status ≠ 200) :
    fetchHandler net writeOk cs req =
      { outcome := .responded (some r), caches := cs,
        networkFetched := true, unhandledRejection := false } ∧
    (fetchHandler net writeOk
        (fetchHandler net writeOk cs req).caches req).networkFetched = true := by
  have hres : fetchHandler net writeOk cs req =
      { outcome := .responded (some r), caches := cs,
        networkFetched := true, unhandledRejection := false } := by
    simp [fetchHandler, hm, hnav, hmiss, hnet, hs]
  refine ⟨hres, ?_⟩
  rw [hres]
  simp [fetchHandler, hm, hnav, hmiss, hnet, hs]

theorem fetch_asset_non200_uncached_witness :
    (exAssetReq.method = "GET" ∧ exAssetReq.mode ≠ "navigate" ∧
      exEmpty.matchAll exAssetReq = none ∧
      exNetNotFound exAssetReq = .ok (some exNotFoundResp) ∧
      exNotFoundResp.status ≠ 200) ∧
    fetchHandler exNetNotFound true exEmpty exAssetReq =
      { outcome := .responded (some exNotFoundResp), caches := exEmpty,
        networkFetched := true, unhandledRejection := false } ∧
    (fetchHandler exNetNotFound true
        (fetchHandler exNetNotFound true exEmpty exAssetReq).caches
        exAssetReq).networkFetched = true :=
  ⟨⟨rfl, by decide, rfl, rfl, by decide⟩,
   fetch_asset_non200_uncached exNetNotFound true exEmpty exAssetReq
     exNotFoundResp rfl (by decide) rfl rfl (by decide)⟩

/-- Claim C7: a request whose method is not GET is not responded to at
all: the fetch handler performs no cache lookup or write, no network
fetch, and leaves every cache store unchanged. -/
theorem fetch_non_get_passthrough
    (net : Request → Except Unit (Option Response)) (writeOk : Bool)
    (cs : CacheStorage) (req : Request) (h : req.method ≠ "GET") :
    fetchHandler net writeOk cs req =
      { outcome := .notHandled, caches := cs, networkFetched := false,
        unhandledRejection := false } := by
  simp [fetchHandler, h]

theorem fetch_non_get_passthrough_witness :
    exPostReq.method ≠ "GET" ∧
    fetchHandler exNetOk true exWarm exPostReq =
      { outcome := .notHandled, caches := exWarm, networkFetched := false,
        unhandledRejection := false } :=
  ⟨by decide, fetch_non_get_passthrough exNetOk true exWarm exPostReq
    (by decide)⟩

/-- Claim C8: for every pre-cache list, the install handler settles the
add attempt of every URL of the list before completing, and an
individual failure is swallowed: after install, the current-version
store holds the fetched ok response of every URL whose add succeeded and
is unchanged at every URL whose add failed. -/
theorem install_settles_every_url (net : String → Except Unit Response)
    (urls : List String) (cs : CacheStorage) (url : String)
    (hmem : url ∈ urls) :
    currentLookup (installList net urls cs) url =
      (match addResult net url with
       | some r => some r
       | none => currentLookup cs url) := by
  unfold installList
  cases ha : addResult net url with
  | some r => exact addAllFrom_lookup_added net urls _ url r hmem ha
  | none =>
    rw [addAllFrom_lookup_untouched net urls _ url (Or.inl ha),
      currentLookup_openStore]

theorem install_settles_every_url_witness :
    ("./" ∈ urlsToCache) ∧
    currentLookup (installList exInstallNet urlsToCache exEmpty) "./" =
      (match addResult exInstallNet "./" with
       | some r => some r
       | none => currentLookup exEmpty "./") :=
  ⟨by decide,
   install_settles_every_url exInstallNet urlsToCache exEmpty "./"
     (by decide)⟩

/-- Claim C9: invariant of every fetch-handler run — every entry of the
resulting cache storage was either already present or is a stored pair
whose request has method GET and whose response has status 200; no
non-200 response and no response to a non-GET request is ever
persisted. -/
theorem fetch_persists_only_get200
    (net : Request → Except Unit (Option Response)) (writeOk : Bool)
    (cs : CacheStorage) (req : Request) (e : String × Request × Response)
    (h : e ∈ (fetchHandler net writeOk cs req).caches.entries) :
    e ∈ cs.entries ∨ (e.2.1.method = "GET" ∧ e.2.2.status = 200) := by
  rcases fetchHandler_cases net writeOk cs req with hc | ⟨r, hm, hs, hc⟩
  · rw [hc] at h
    exact Or.inl h
  · rw [hc] at h
    rcases mem_entries_put h with h' | h'
    · exact Or.inl h'
    · subst h'
      exact Or.inr ⟨hm, hs⟩

theorem fetch_persists_only_get200_witness :
    ((CACHE_NAME, exNavReq, exOkResp) ∈
        (fetchHandler exNetOk true exEmpty exNavReq).caches.entries) ∧
    ((CACHE_NAME, exNavReq, exOkResp) ∈ exEmpty.entries ∨
      (exNavReq.method = "GET" ∧ exOkResp.status = 200)) :=
  ⟨by decide,
   fetch_persists_only_get200 exNetOk true exEmpty exNavReq
     (CACHE_NAME, exNavReq, exOkResp) (by decide)⟩

/-- Claim C10: cache lookups of the fetch handler consult every existing
store, so a request whose entry lives only in a stale-version store is
served from it, while cache writes only ever modify the store named by
the current version constant. -/
theorem fetch_reads_global_writes_current :
    (∀ (net : Request → Except Unit (Option Response)) (writeOk : Bool)
        (cs : CacheStorage) (req : Request) (c : Response),
      req.method = "GET" → req.mode ≠ "navigate" →
      currentLookup cs req.url = none → cs.matchAll req = some c →
      (fetchHandler net writeOk cs req).outcome = .responded (some c) ∧
      (fetchHandler net writeOk cs req).networkFetched = false) ∧
    (∀ (net : Request → Except Unit (Option Response)) (writeOk : Bool)
        (cs : CacheStorage) (req : Request) (name : String),
      name ≠ CACHE_NAME →
      (fetchHandler net writeOk cs req).caches.getStore name =
        cs.getStore name) := by
  constructor
  · intro net writeOk cs req c hm hnav _ hc
    simp [fetchHandler, hm, hnav, hc]
  · intro net writeOk cs req name hn
    rcases fetchHandler_cases net writeOk cs req with hc | ⟨r, _, _, hc⟩
    · rw [hc]
    · rw [hc]
      exact getStore_put_other cs CACHE_NAME name req r hn

theorem fetch_reads_global_writes_current_witness :
    ((fetchHandler exNetOk true exStaleStorage exAssetReq).outcome =
        .responded (some exOkResp) ∧
      (fetchHandler exNetOk true exStaleStorage exAssetReq).networkFetched =
        false) ∧
    (fetchHandler exNetOk true exStaleStorage exAssetReq).caches.getStore
        "dosage-calculator-cache-v1.2" =
      exStaleStorage.getStore "dosage-calculator-cache-v1.2" :=
  ⟨fetch_reads_global_writes_current.1 exNetOk true exStaleStorage exAssetReq
      exOkResp rfl (by decide) (by decide) (by decide),
   fetch_reads_global_writes_current.2 exNetOk true exStaleStorage exAssetReq
      "dosage-calculator-cache-v1.2" (by decide)⟩

/-- Claim C1 counterexample: on the navigation success path the detached
cache-write chain has no terminal catch in sw.js, so when that write
fails its rejection is left unhandled — refuting that no error from the
module ever surfaces as an unhandled rejection. -/
theorem fetch_detached_write_unhandled :
    (fetchHandler exNetOk false exEmpty exNavReq).unhandledRejection =
      true := by
  decide

/-- Claim C1 (amended): every asynchronous chain of the fetch handler
other than the detached cache-write chains is caught — when the detached
writes succeed no rejection is ever left unhandled, whatever the network
does — and a failing detached write never changes the response the
handler returns; only those detached write chains can surface an
unhandled rejection. -/
theorem fetch_chains_caught_except_detached_writes
    (net : Request → Except Unit (Option Response)) (cs : CacheStorage)
    (req : Request) :
    (fetchHandler net true cs req).unhandledRejection = false ∧
    (fetchHandler net false cs req).outcome =
      (fetchHandler net true cs req).outcome := by
  by_cases hm : req.method = "GET"
  · by_cases hnav : req.mode = "navigate"
    · cases hnet : net req with
      | error e =>
        cases hc : cs.matchAll req <;> simp [fetchHandler, hm, hnav, hnet, hc]
      | ok o =>
        cases o with
        | none =>
          cases hc : cs.matchAll req <;> simp [fetchHandler, hm, hnav, hnet, hc]
        | some r =>
          by_cases hv : r.status = 200 ∧ r.type = "basic"
          · simp [fetchHandler, hm, hnav, hnet, hv]
          · cases hc : cs.matchAll req <;>
              simp [fetchHandler, hm, hnav, hnet, hv, hc]
    · cases hc : cs.matchAll req with
      | some c => simp [fetchHandler, hm, hnav, hc]
      | none =>
        cases hnet : net req with
        | error e => simp [fetchHandler, hm, hnav, hc, hnet]
        | ok o =>
          cases o with
          | none => simp [fetchHandler, hm, hnav, hc, hnet]
          | some r =>
            by_cases hs : r.status = 200 <;>
              simp [fetchHandler, hm, hnav, hc, hnet, hs]
  · simp [fetchHandler, hm]

end SW
